import Mathlib

/-!
Verification of the pyro-eval engine evaluation core
(`src/pyro_eval/engine_evaluation.py` and `src/pyro_eval/model.py`).

The Python code is shallowly embedded: pure data flow becomes Lean
functions, the mutable engine state (`self.engine._states`) is threaded
explicitly, pandas dataframes become lists of records, and the external
pyroengine `Engine.predict` collaborator is an abstract state-passing
function parameter.  Python floats are modelled as rationals (only order
comparisons and means matter to the properties below).
-/

namespace PyroEval

/-- One image of a sequence - mirrors the `image` objects consumed by
`EngineEvaluator.run_engine_sequence` (fields `path`, `label`, `boxes`,
`timedelta`).  `timedelta` is kept as the raw string found in the data /
CSV; parsing it as a duration is pandas' `pd.to_timedelta` and is modelled
separately. -/
structure CustomImage where
  path : String
  label : Bool
  boxes : List (List Rat)
  timedelta : String
  deriving DecidableEq

/-- A sequence of images sharing a `sequence_id` and a ground-truth
`label` - mirrors `data_structures.Sequence` as used by the evaluator. -/
structure Sequence where
  sequence_id : String
  label : Bool
  images : List CustomImage
  deriving DecidableEq

/-- A bounded score FIFO - mirrors Python's
`collections.deque(items, maxlen)` as stored in the engine state. -/
structure ScoreDeque where
  maxlen : Nat
  items : List Rat
  deriving DecidableEq

/-- Per-camera engine state - mirrors one value of the pyroengine
`Engine._states` dict: a `last_predictions` deque and an `ongoing` flag. -/
structure CamState where
  last_predictions : ScoreDeque
  ongoing : Bool
  deriving DecidableEq

/-- The engine `_states` dict, keyed by camera id (the evaluator only ever
uses the default key `"-1"`). -/
abbrev EngineStates := List (String × CamState)

/-- The external pyroengine `Engine.predict` collaborator: consumes one
image and the current engine state, returns a confidence score and the
updated engine state.  Abstract - §6 of the spec treats it as an external
collaborator supplying per-frame confidences. -/
abbrev EnginePredict := CustomImage → EngineStates → Rat × EngineStates

/-- One row of the prediction table - mirrors the row appended to
`sequence_results` in `run_engine_sequence` (columns
`self.results_data`). -/
structure PredictionRecord where
  sequence_id : String
  image : String
  sequence_label : Bool
  ground_truth_boxes : List (List Rat)
  image_label : Bool
  prediction : Bool
  confidence : Rat
  timedelta : String
  deriving DecidableEq

/-- The reset value assigned to `self.engine._states` at the end of
`run_engine_sequence`:
`{"-1": {"last_predictions": deque([], nb_consecutive_frames), "ongoing": False}}`. -/
def resetStates (nb_consecutive_frames : Nat) : EngineStates :=
  [("-1", { last_predictions := { maxlen := nb_consecutive_frames, items := [] },
            ongoing := false })]

/-- The frame loop of `run_engine_sequence`: for each image of the
sequence, call `self.engine.predict`, then append a row
`[sequence.sequence_id, image.path, sequence.label, image.boxes,
image.label, bool(confidence > self.engine.conf_thresh), confidence,
image.timedelta]` to the results.  The engine state is threaded through
the predict calls. -/
def runFrames (seq : Sequence) (conf_thresh : Rat) (predict : EnginePredict) :
    EngineStates → List CustomImage → List PredictionRecord × EngineStates
  | st, [] => ([], st)
  | st, image :: rest =>
    let res := predict image st
    let record : PredictionRecord :=
      { sequence_id := seq.sequence_id
        image := image.path
        sequence_label := seq.label
        ground_truth_boxes := image.boxes
        image_label := image.label
        prediction := decide (res.1 > conf_thresh)
        confidence := res.1
        timedelta := image.timedelta }
    let tail := runFrames seq conf_thresh predict res.2 rest
    (record :: tail.1, tail.2)

/-- `EngineEvaluator.run_engine_sequence`: run the frame loop over
`sequence.images`, then overwrite `self.engine._states` with the reset
dict.  Returns the per-frame records and the final engine state. -/
def run_engine_sequence (nb_consecutive_frames : Nat) (conf_thresh : Rat)
    (predict : EnginePredict) (st : EngineStates) (seq : Sequence) :
    List PredictionRecord × EngineStates :=
  let result := runFrames seq conf_thresh predict st seq.images
  (result.1, resetStates nb_consecutive_frames)

/-- The stream of confidences the engine returns when fed the given images
in order starting from engine state `st` (the reference against which the
produced records are compared). -/
def engineConfidences (predict : EnginePredict) :
    EngineStates → List CustomImage → List Rat
  | _, [] => []
  | st, image :: rest =>
    let res := predict image st
    res.1 :: engineConfidences predict res.2 rest

theorem runFrames_prediction {seq : Sequence} {conf_thresh : Rat}
    {predict : EnginePredict} :
    ∀ (st : EngineStates) (images : List CustomImage)
      (r : PredictionRecord),
      r ∈ (runFrames seq conf_thresh predict st images).1 →
      r.prediction = decide (r.confidence > conf_thresh) := by
  intro st images
  induction images generalizing st with
  | nil => intro r hr; simp [runFrames] at hr
  | cons image rest ih =>
    intro r hr
    simp only [runFrames, List.mem_cons] at hr
    rcases hr with hr | hr
    · subst hr; rfl
    · exact ih _ r hr

/-- C1: every record produced by `run_engine_sequence` has
`prediction = (confidence > conf_thresh)` - the strict comparison of the
engine's returned confidence against the configured threshold; in
particular a confidence exactly equal to `conf_thresh` yields
`prediction = false`. -/
theorem run_engine_sequence_prediction_is_strict_comparison
    (nb_consecutive_frames : Nat) (conf_thresh : Rat)
    (predict : EnginePredict) (st : EngineStates) (seq : Sequence)
    (r : PredictionRecord)
    (hr : r ∈ (run_engine_sequence nb_consecutive_frames conf_thresh predict st seq).1) :
    r.prediction = decide (r.confidence > conf_thresh) ∧
    (r.confidence = conf_thresh → r.prediction = false) := by
  have h := runFrames_prediction st seq.images r hr
  refine ⟨h, fun heq => ?_⟩
  rw [h, heq]
  simp

/-- A one-image sequence used to instantiate the theorems concretely. -/
def sampleImage : CustomImage :=
  { path := "img0.jpg", label := true, boxes := [], timedelta := "0 days 00:00:10" }

/-- A concrete sequence with a single image. -/
def sampleSequence : Sequence :=
  { sequence_id := "seq-A", label := true, images := [sampleImage] }

/-- An engine that always returns confidence 1 and leaves its state
unchanged - a concrete instance of the abstract predict collaborator. -/
def onePredict : EnginePredict := fun _ st => (1, st)

/-- The record produced for `sampleImage` when the engine returns exactly
the threshold 1: the recorded prediction is `false`. -/
def sampleRecord : PredictionRecord :=
  { sequence_id := "seq-A", image := "img0.jpg", sequence_label := true,
    ground_truth_boxes := [], image_label := true, prediction := false,
    confidence := 1, timedelta := "0 days 00:00:10" }

/-- Witness for C1 at a concrete input: the engine returns exactly the
threshold 1, and the recorded prediction is `false`. -/
theorem run_engine_sequence_prediction_is_strict_comparison_witness :
    sampleRecord ∈ (run_engine_sequence 2 1 onePredict (resetStates 2) sampleSequence).1 ∧
    sampleRecord.prediction = decide (sampleRecord.confidence > (1 : Rat)) ∧
    (sampleRecord.confidence = (1 : Rat) → sampleRecord.prediction = false) := by
  have h := run_engine_sequence_prediction_is_strict_comparison 2 1 onePredict
    (resetStates 2) sampleSequence sampleRecord (by decide)
  exact ⟨by decide, h.1, h.2⟩

/-- C2: after `run_engine_sequence` finishes, the engine state is the
reset dict: its only key is `"-1"`, whose score FIFO is empty with hard
capacity `nb_consecutive_frames` and whose `ongoing` flag is `False` -
regardless of the sequence, the predict collaborator, or the state the
engine started in. -/
theorem run_engine_sequence_resets_state
    (nb_consecutive_frames : Nat) (conf_thresh : Rat)
    (predict : EnginePredict) (st : EngineStates) (seq : Sequence) :
    ((run_engine_sequence nb_consecutive_frames conf_thresh predict st seq).2.lookup "-1" =
      some { last_predictions := { maxlen := nb_consecutive_frames, items := [] },
             ongoing := false }) ∧
    (run_engine_sequence nb_consecutive_frames conf_thresh predict st seq).2.map Prod.fst =
      ["-1"] := by
  constructor <;> rfl

theorem runFrames_fields {seq : Sequence} {conf_thresh : Rat}
    {predict : EnginePredict} :
    ∀ (st : EngineStates) (images : List CustomImage),
      ((runFrames seq conf_thresh predict st images).1.length = images.length) ∧
      ((runFrames seq conf_thresh predict st images).1.map PredictionRecord.sequence_id =
        List.replicate images.length seq.sequence_id) ∧
      ((runFrames seq conf_thresh predict st images).1.map PredictionRecord.image =
        images.map CustomImage.path) ∧
      ((runFrames seq conf_thresh predict st images).1.map PredictionRecord.sequence_label =
        List.replicate images.length seq.label) ∧
      ((runFrames seq conf_thresh predict st images).1.map PredictionRecord.ground_truth_boxes =
        images.map CustomImage.boxes) ∧
      ((runFrames seq conf_thresh predict st images).1.map PredictionRecord.image_label =
        images.map CustomImage.label) ∧
      ((runFrames seq conf_thresh predict st images).1.map PredictionRecord.timedelta =
        images.map CustomImage.timedelta) ∧
      ((runFrames seq conf_thresh predict st images).1.map PredictionRecord.confidence =
        engineConfidences predict st images) ∧
      ((runFrames seq conf_thresh predict st images).1.map PredictionRecord.prediction =
        (engineConfidences predict st images).map (fun c => decide (c > conf_thresh))) := by
  intro st images
  induction images generalizing st with
  | nil => simp [runFrames, engineConfidences]
  | cons image rest ih =>
    obtain ⟨h1, h2, h3, h4, h5, h6, h7, h8, h9⟩ := ih ((predict image st).2)
    refine ⟨?_, ?_, ?_, ?_, ?_, ?_, ?_, ?_, ?_⟩ <;>
      simp [runFrames, engineConfidences, h1, h2, h3, h4, h5, h6, h7, h8, h9,
        List.replicate_succ]

/-- C3: `run_engine_sequence` returns exactly one record per frame, in
frame order: the record list has the same length as `sequence.images`,
every record carries the sequence's id and label, and the i-th record
carries the i-th image's path, boxes, label and timedelta together with
the confidence the engine returned for that frame (the i-th element of
the engine's confidence stream) and the decision derived from it. -/
theorem run_engine_sequence_one_record_per_frame
    (nb_consecutive_frames : Nat) (conf_thresh : Rat)
    (predict : EnginePredict) (st : EngineStates) (seq : Sequence) :
    ((run_engine_sequence nb_consecutive_frames conf_thresh predict st seq).1.length =
      seq.images.length) ∧
    ((run_engine_sequence nb_consecutive_frames conf_thresh predict st seq).1.map
        PredictionRecord.sequence_id = List.replicate seq.images.length seq.sequence_id) ∧
    ((run_engine_sequence nb_consecutive_frames conf_thresh predict st seq).1.map
        PredictionRecord.image = seq.images.map CustomImage.path) ∧
    ((run_engine_sequence nb_consecutive_frames conf_thresh predict st seq).1.map
        PredictionRecord.sequence_label = List.replicate seq.images.length seq.label) ∧
    ((run_engine_sequence nb_consecutive_frames conf_thresh predict st seq).1.map
        PredictionRecord.ground_truth_boxes = seq.images.map CustomImage.boxes) ∧
    ((run_engine_sequence nb_consecutive_frames conf_thresh predict st seq).1.map
        PredictionRecord.image_label = seq.images.map CustomImage.label) ∧
    ((run_engine_sequence nb_consecutive_frames conf_thresh predict st seq).1.map
        PredictionRecord.timedelta = seq.images.map CustomImage.timedelta) ∧
    ((run_engine_sequence nb_consecutive_frames conf_thresh predict st seq).1.map
        PredictionRecord.confidence = engineConfidences predict st seq.images) ∧
    ((run_engine_sequence nb_consecutive_frames conf_thresh predict st seq).1.map
        PredictionRecord.prediction =
      (engineConfidences predict st seq.images).map (fun c => decide (c > conf_thresh))) := by
  exact runFrames_fields st seq.images

/-- The prediction table at entry of the loop in `run_engine_dataset`: the
csv is loaded when it exists and `self.resume` is set, otherwise the table
starts empty (`pd.DataFrame(columns=self.results_data)`). -/
def initialPredictions (csvExists : Bool) (resume : Bool)
    (loaded : List PredictionRecord) : List PredictionRecord :=
  if csvExists && resume then loaded else []

/-- The mutable state of the `for sequence in self.dataset` loop:
`self.predictions_df`, the trace of loop checkpoint writes (each recorded
by the table length written - the loop writes the full table), and the
engine state threaded through `self.engine`. -/
structure LoopState where
  predictions_df : List PredictionRecord
  checkpoints : List Nat
  engineStates : EngineStates
  deriving DecidableEq

/-- One iteration of the loop body of `run_engine_dataset`: if
`self.resume` and the sequence id is among the current table's
`sequence_id` column, the sequence is skipped (`continue`); otherwise
`run_engine_sequence` is invoked, its rows concatenated to the table, and
- when `self.save` is set and `len(self.predictions_df) % 50 == 0` - the
full table is written to the checkpoint csv. -/
def datasetStep (nb_consecutive_frames : Nat) (conf_thresh : Rat)
    (predict : EnginePredict) (save resume : Bool)
    (ls : LoopState) (seq : Sequence) : LoopState :=
  if resume && (ls.predictions_df.map PredictionRecord.sequence_id).contains seq.sequence_id then
    ls
  else
    let result := run_engine_sequence nb_consecutive_frames conf_thresh predict
      ls.engineStates seq
    let df := ls.predictions_df ++ result.1
    { predictions_df := df
      checkpoints :=
        if save && df.length % 50 == 0 then ls.checkpoints ++ [df.length]
        else ls.checkpoints
      engineStates := result.2 }

/-- The loop of `EngineEvaluator.run_engine_dataset` over the dataset's
sequences.  (The unconditional final `to_csv` after the loop, and the
temporary-model cleanup in the `finally` block, are outside the loop state
modelled here.) -/
def run_engine_dataset (nb_consecutive_frames : Nat) (conf_thresh : Rat)
    (predict : EnginePredict) (save resume : Bool) (csvExists : Bool)
    (loaded : List PredictionRecord) (st : EngineStates)
    (dataset : List Sequence) : LoopState :=
  dataset.foldl (datasetStep nb_consecutive_frames conf_thresh predict save resume)
    { predictions_df := initialPredictions csvExists resume loaded
      checkpoints := []
      engineStates := st }

/-- A record standing for one row already present in a loaded checkpoint. -/
def oldRecord : PredictionRecord :=
  { sequence_id := "old", image := "old.jpg", sequence_label := false,
    ground_truth_boxes := [], image_label := false, prediction := false,
    confidence := 0, timedelta := "0 days 00:00:00" }

/-- A loaded checkpoint table holding 49 rows. -/
def loaded49 : List PredictionRecord := List.replicate 49 oldRecord

/-- A two-image sequence. -/
def twoImageSequence : Sequence :=
  { sequence_id := "seq-B", label := true, images := [sampleImage, sampleImage] }

/-- C4 counterexample: with persistence on, a loaded checkpoint of 49 rows
and a single sequence of 2 frames, the table grows from 49 to 51 rows -
crossing the 50-row boundary - yet the loop performs no checkpoint write,
because the code tests `len(self.predictions_df) % 50 == 0` exactly and
51 is not a multiple of 50. -/
theorem run_engine_dataset_checkpoint_counterexample :
    (initialPredictions true true loaded49).length = 49 ∧
    (run_engine_dataset 1 0 onePredict true true true loaded49 (resetStates 1)
      [twoImageSequence]).predictions_df.length = 51 ∧
    (run_engine_dataset 1 0 onePredict true true true loaded49 (resetStates 1)
      [twoImageSequence]).checkpoints = [] := by
  exact ⟨by decide, by decide, by decide⟩

/-- C4 (amended): during the dataset loop, after a sequence is processed
(not skipped), the table length grows by exactly one row per frame of the
sequence, and the full table is written to the checkpoint exactly when
persistence is enabled and the new accumulated row count is an exact
multiple of 50 (not whenever it crosses a 50-row boundary). -/
theorem datasetStep_checkpoint_on_multiples_of_50
    (nb_consecutive_frames : Nat) (conf_thresh : Rat) (predict : EnginePredict)
    (save resume : Bool) (ls : LoopState) (seq : Sequence)
    (hproc : (resume &&
      (ls.predictions_df.map PredictionRecord.sequence_id).contains seq.sequence_id) = false) :
    ((datasetStep nb_consecutive_frames conf_thresh predict save resume ls seq).predictions_df.length
      = ls.predictions_df.length + seq.images.length) ∧
    ((datasetStep nb_consecutive_frames conf_thresh predict save resume ls seq).checkpoints
      = if save && (ls.predictions_df.length + seq.images.length) % 50 == 0
        then ls.checkpoints ++ [ls.predictions_df.length + seq.images.length]
        else ls.checkpoints) := by
  have hlen : (run_engine_sequence nb_consecutive_frames conf_thresh predict
      ls.engineStates seq).1.length = seq.images.length :=
    (runFrames_fields ls.engineStates seq.images).1
  simp only [datasetStep, hproc, Bool.false_eq_true, if_false, List.length_append, hlen]
  exact ⟨trivial, trivial⟩

/-- Witness for the amended C4 at a concrete input: a 49-row table plus a
2-frame sequence gives 51 rows and no checkpoint write. -/
theorem datasetStep_checkpoint_on_multiples_of_50_witness :
    ((datasetStep 1 0 onePredict true true
        { predictions_df := loaded49, checkpoints := [], engineStates := resetStates 1 }
        twoImageSequence).predictions_df.length = 49 + 2) ∧
    ((datasetStep 1 0 onePredict true true
        { predictions_df := loaded49, checkpoints := [], engineStates := resetStates 1 }
        twoImageSequence).checkpoints
      = if true && (49 + 2) % 50 == 0 then [] ++ [49 + 2] else []) := by
  have h := datasetStep_checkpoint_on_multiples_of_50 1 0 onePredict true true
    { predictions_df := loaded49, checkpoints := [], engineStates := resetStates 1 }
    twoImageSequence (by decide)
  exact ⟨by simpa using h.1, by simpa using h.2⟩

/-- C5 counterexample: with resume on and an empty loaded table, a dataset
containing the same one-image sequence twice yields a final table of 1 row,
not 2: the second occurrence is skipped because the *current accumulated*
table already holds its id, even though the *loaded* table never did. -/
theorem run_engine_dataset_resume_skip_counterexample :
    (initialPredictions false true []).length = 0 ∧
    ((run_engine_sequence 1 0 onePredict (resetStates 1) sampleSequence).1.length = 1) ∧
    ((run_engine_dataset 1 0 onePredict false true false [] (resetStates 1)
      [sampleSequence, sampleSequence]).predictions_df.length = 1) := by
  exact ⟨by decide, by decide, by decide⟩

/-- C5 (amended): at each loop iteration, the sequence is skipped exactly
when resume is enabled and the *current accumulated* prediction table
(initialized from the loaded checkpoint and grown by previous iterations)
already contains a record with this sequence id; otherwise the Sequence
Runner is invoked, its records are appended to the table and the engine
state advances. -/
theorem datasetStep_skip_or_append
    (nb_consecutive_frames : Nat) (conf_thresh : Rat) (predict : EnginePredict)
    (save resume : Bool) (ls : LoopState) (seq : Sequence) :
    ((datasetStep nb_consecutive_frames conf_thresh predict save resume ls seq).predictions_df
      = if resume = true ∧ seq.sequence_id ∈ ls.predictions_df.map PredictionRecord.sequence_id
        then ls.predictions_df
        else ls.predictions_df ++
          (run_engine_sequence nb_consecutive_frames conf_thresh predict ls.engineStates seq).1) ∧
    ((datasetStep nb_consecutive_frames conf_thresh predict save resume ls seq).engineStates
      = if resume = true ∧ seq.sequence_id ∈ ls.predictions_df.map PredictionRecord.sequence_id
        then ls.engineStates
        else (run_engine_sequence nb_consecutive_frames conf_thresh predict ls.engineStates seq).2) := by
  have key : ((resume && (ls.predictions_df.map PredictionRecord.sequence_id).contains
      seq.sequence_id) = true) ↔
      (resume = true ∧ seq.sequence_id ∈ ls.predictions_df.map PredictionRecord.sequence_id) := by
    rw [Bool.and_eq_true]
    exact and_congr_right fun _ => List.elem_iff
  rcases Bool.eq_false_or_eq_true
      (resume && (ls.predictions_df.map PredictionRecord.sequence_id).contains seq.sequence_id)
    with hb | hb
  · have hp : resume = true ∧
        seq.sequence_id ∈ ls.predictions_df.map PredictionRecord.sequence_id := key.mp hb
    rw [if_pos hp, if_pos hp]
    unfold datasetStep
    rw [hb]
    exact ⟨rfl, rfl⟩
  · have hp : ¬(resume = true ∧
        seq.sequence_id ∈ ls.predictions_df.map PredictionRecord.sequence_id) := by
      intro hc
      rw [key.mpr hc] at hb
      exact Bool.noConfusion hb
    rw [if_neg hp, if_neg hp]
    unfold datasetStep
    rw [hb]
    exact ⟨rfl, rfl⟩

/-- The coercing timedelta parse, `pd.to_timedelta(..., errors="coerce")`:
a raw timedelta string becomes a duration, or missing (`NaT`) when it is
unparseable - never an error.  The exact pandas duration grammar is
external; the aggregation below is proved for every such parse. -/
abbrev TimedeltaParse := String → Option Rat

/-- The distinct `sequence_id` keys of `df.groupby("sequence_id")`, in
order of first occurrence.  (pandas returns the groups sorted by key; the
key order affects none of the properties below - group contents do - and
is left in first-occurrence order here.) -/
def groupKeys (df : List PredictionRecord) : List String :=
  df.foldl
    (fun acc r => if acc.contains r.sequence_id then acc else acc ++ [r.sequence_id]) []

/-- One entry of the `sequence_metrics` list built per group by
`compute_sequence_level_metrics`. -/
structure SequenceMetric where
  sequence_id : String
  label : Bool
  has_detection : Bool
  detection_delay : Option Rat
  deriving DecidableEq

/-- Minimum of a list of possibly-missing durations, skipping the missing
ones - `np.min` over a timedelta series with `NaT` entries (`skipna`
default): all entries missing gives missing. -/
def minSkipNone : List (Option Rat) → Option Rat
  | [] => none
  | none :: rest => minSkipNone rest
  | some x :: rest =>
    match minSkipNone rest with
    | none => some x
    | some y => if x ≤ y then some x else some y

/-- The `detection_delay` computed for one group: `detection_timedeltas`
are the coerced timedeltas of the group's positive-prediction rows (the
local is inlined here); `None` when there are none, otherwise their
skip-missing minimum (missing when none parses). -/
def detection_delay (parse : TimedeltaParse) (group : List PredictionRecord) : Option Rat :=
  if ((group.filter (fun r => r.prediction)).map (fun r => parse r.timedelta)).isEmpty then
    none
  else minSkipNone ((group.filter (fun r => r.prediction)).map (fun r => parse r.timedelta))

/-- The `sequence_metrics` list of `compute_sequence_level_metrics`: one
entry per group of `df.groupby("sequence_id")`, carrying the group's first
row's `sequence_label` (`iloc[0]`), `has_detection` as the OR of the
group's predictions (`any()`), and the group's `detection_delay`. -/
def sequence_metrics (parse : TimedeltaParse) (df : List PredictionRecord) :
    List SequenceMetric :=
  (groupKeys df).map (fun id =>
    let group := df.filter (fun r => r.sequence_id == id)
    { sequence_id := id
      label := (group.head?.map PredictionRecord.sequence_label).getD false
      has_detection := group.any (fun r => r.prediction)
      detection_delay := detection_delay parse group })

/-- The `tp_sequences` bucket: `label == True` and `has_detection == True`. -/
def tp_sequences (parse : TimedeltaParse) (df : List PredictionRecord) :
    List SequenceMetric :=
  (sequence_metrics parse df).filter (fun m => m.label == true && m.has_detection == true)

/-- The `fn_sequences` bucket: `label == True` and `has_detection == False`. -/
def fn_sequences (parse : TimedeltaParse) (df : List PredictionRecord) :
    List SequenceMetric :=
  (sequence_metrics parse df).filter (fun m => m.label == true && m.has_detection == false)

/-- The `fp_sequences` bucket: `label == False` and `has_detection == True`. -/
def fp_sequences (parse : TimedeltaParse) (df : List PredictionRecord) :
    List SequenceMetric :=
  (sequence_metrics parse df).filter (fun m => m.label == false && m.has_detection == true)

/-- The `tn_sequences` bucket: `label == False` and `has_detection == False`. -/
def tn_sequences (parse : TimedeltaParse) (df : List PredictionRecord) :
    List SequenceMetric :=
  (sequence_metrics parse df).filter (fun m => m.label == false && m.has_detection == false)

/-- Modelled from the spec: `utils.compute_metrics` is imported from
`pyro_eval.utils`, which is not under `src/`; §4.4 of the spec fixes its
contract - precision, recall and f1 derived from the counts with the
convention that a rate is 0 (not NaN) when its denominator is 0. -/
def compute_metrics (false_positives true_positives false_negatives : Nat) :
    Rat × Rat × Rat :=
  let p : Rat :=
    if true_positives + false_positives = 0 then 0
    else (true_positives : Rat) / ((true_positives : Rat) + (false_positives : Rat))
  let r : Rat :=
    if true_positives + false_negatives = 0 then 0
    else (true_positives : Rat) / ((true_positives : Rat) + (false_negatives : Rat))
  let f1 : Rat := if p + r = 0 then 0 else 2 * p * r / (p + r)
  (p, r, f1)

/-- A value of the dict returned by `compute_sequence_level_metrics`. -/
inductive MetricValue where
  | num (q : Rat)
  | count (n : Nat)
  | null
  | idLists (entries : List (String × List String))
  deriving DecidableEq

/-- The dict returned by `compute_sequence_level_metrics`, as the ordered
key/value list of its literal: rates, the four bucket counts, the
`avg_detection_delay` entry (the mean of the non-missing delays of the
`tp_sequences` when at least one exists - `dropna().mean()` - and `None`
when `tp_sequences["detection_delay"].isnull().all()`), and the
`predictions` entry listing each bucket's sequence ids. -/
def compute_sequence_level_metrics (parse : TimedeltaParse)
    (df : List PredictionRecord) : List (String × MetricValue) :=
  let tp := tp_sequences parse df
  let fn := fn_sequences parse df
  let fp := fp_sequences parse df
  let tn := tn_sequences parse df
  let metrics := compute_metrics fp.length tp.length fn.length
  let delays := (tp.map SequenceMetric.detection_delay).filterMap id
  [("precision", .num metrics.1),
   ("recall", .num metrics.2.1),
   ("f1", .num metrics.2.2),
   ("tp", .count tp.length),
   ("fp", .count fp.length),
   ("fn", .count fn.length),
   ("tn", .count tn.length),
   ("avg_detection_delay",
     if delays.isEmpty then .null else .num (delays.sum / (delays.length : Rat))),
   ("predictions", .idLists
     [("tp", tp.map SequenceMetric.sequence_id),
      ("fn", fn.map SequenceMetric.sequence_id),
      ("fp", fp.map SequenceMetric.sequence_id),
      ("tn", tn.map SequenceMetric.sequence_id)])]

theorem minSkipNone_eq_none_iff (l : List (Option Rat)) :
    minSkipNone l = none ↔ ∀ o ∈ l, o = none := by
  induction l with
  | nil => simp [minSkipNone]
  | cons o rest ih =>
    cases o with
    | none => simpa [minSkipNone] using ih
    | some x =>
      constructor
      · intro h
        exfalso
        cases hm : minSkipNone rest with
        | none =>
          simp only [minSkipNone, hm] at h
          exact Option.noConfusion h
        | some y =>
          simp only [minSkipNone, hm] at h
          by_cases hxy : x ≤ y
          · rw [if_pos hxy] at h; exact Option.noConfusion h
          · rw [if_neg hxy] at h; exact Option.noConfusion h
      · intro h
        exact absurd (h (some x) (List.mem_cons_self _ _)) (by simp)

theorem minSkipNone_eq_some (l : List (Option Rat)) :
    ∀ d : Rat, minSkipNone l = some d →
      (some d ∈ l) ∧ ∀ e : Rat, some e ∈ l → d ≤ e := by
  induction l with
  | nil => intro d h; exact Option.noConfusion h
  | cons o rest ih =>
    intro d h
    cases o with
    | none =>
      rw [minSkipNone] at h
      obtain ⟨h1, h2⟩ := ih d h
      refine ⟨List.mem_cons_of_mem _ h1, fun e he => ?_⟩
      rcases List.mem_cons.mp he with he | he
      · exact absurd he (by simp)
      · exact h2 e he
    | some x =>
      cases hm : minSkipNone rest with
      | none =>
        simp only [minSkipNone, hm] at h
        have hx : x = d := Option.some.inj h
        subst hx
        refine ⟨List.mem_cons_self _ _, fun e he => ?_⟩
        rcases List.mem_cons.mp he with he | he
        · exact le_of_eq (Option.some.inj he.symm)
        · exact absurd ((minSkipNone_eq_none_iff rest).mp hm (some e) he) (by simp)
      | some y =>
        simp only [minSkipNone, hm] at h
        obtain ⟨hy1, hy2⟩ := ih y hm
        by_cases hxy : x ≤ y
        · rw [if_pos hxy] at h
          have hx : x = d := Option.some.inj h
          subst hx
          refine ⟨List.mem_cons_self _ _, fun e he => ?_⟩
          rcases List.mem_cons.mp he with he | he
          · exact le_of_eq (Option.some.inj he.symm)
          · exact le_trans hxy (hy2 e he)
        · rw [if_neg hxy] at h
          have hy : y = d := Option.some.inj h
          subst hy
          refine ⟨List.mem_cons_of_mem _ hy1, fun e he => ?_⟩
          rcases List.mem_cons.mp he with he | he
          · have hex : e = x := Option.some.inj he
            subst hex
            exact le_of_not_le hxy
          · exact hy2 e he

theorem detection_delay_spec (parse : TimedeltaParse) (group : List PredictionRecord) :
    (detection_delay parse group = none ↔
      ∀ r ∈ group.filter (fun r => r.prediction), parse r.timedelta = none) ∧
    (∀ d : Rat, detection_delay parse group = some d →
      (∃ r ∈ group.filter (fun r => r.prediction), parse r.timedelta = some d) ∧
      ∀ r ∈ group.filter (fun r => r.prediction), ∀ e : Rat,
        parse r.timedelta = some e → d ≤ e) := by
  unfold detection_delay
  cases hps : group.filter (fun r => r.prediction) with
  | nil => simp
  | cons p ps =>
    rw [if_neg (by simp : ¬(((p :: ps).map (fun r => parse r.timedelta)).isEmpty = true))]
    constructor
    · rw [minSkipNone_eq_none_iff]
      constructor
      · intro h r hr
        exact h _ (List.mem_map.mpr ⟨r, hr, rfl⟩)
      · intro h o ho
        obtain ⟨r, hr, hro⟩ := List.mem_map.mp ho
        rw [← hro]
        exact h r hr
    · intro d hd
      obtain ⟨h1, h2⟩ := minSkipNone_eq_some _ d hd
      constructor
      · obtain ⟨r, hr, hro⟩ := List.mem_map.mp h1
        exact ⟨r, hr, hro⟩
      · intro r hr e he
        exact h2 e (List.mem_map.mpr ⟨r, hr, he⟩)

theorem mem_sequence_metrics {parse : TimedeltaParse} {df : List PredictionRecord}
    {m : SequenceMetric} (hm : m ∈ sequence_metrics parse df) :
    m.detection_delay =
      detection_delay parse (df.filter (fun r => r.sequence_id == m.sequence_id)) := by
  obtain ⟨id, _, hconstr⟩ := List.mem_map.mp hm
  subst hconstr
  rfl

/-- C6: for every group of the prediction table, the computed
`detection_delay` is missing exactly when no positive-prediction record of
the group has a parseable timedelta (in particular a group with no
positive-prediction record has no delay, and unparseable values are
skipped as missing, not fatal - the computation is total); and whenever it
is defined, it is attained by a positive-prediction record of the group and
is a lower bound of every parsed timedelta among them - i.e. it is the
minimum timedelta among the group's positive-prediction records. -/
theorem compute_sequence_level_metrics_detection_delay
    (parse : TimedeltaParse) (df : List PredictionRecord) (m : SequenceMetric)
    (hm : m ∈ sequence_metrics parse df) :
    (m.detection_delay = none ↔
      ∀ r ∈ (df.filter (fun r => r.sequence_id == m.sequence_id)).filter
        (fun r => r.prediction), parse r.timedelta = none) ∧
    (∀ d : Rat, m.detection_delay = some d →
      (∃ r ∈ (df.filter (fun r => r.sequence_id == m.sequence_id)).filter
        (fun r => r.prediction), parse r.timedelta = some d) ∧
      ∀ r ∈ (df.filter (fun r => r.sequence_id == m.sequence_id)).filter
        (fun r => r.prediction), ∀ e : Rat, parse r.timedelta = some e → d ≤ e) := by
  rw [mem_sequence_metrics hm]
  exact detection_delay_spec parse (df.filter (fun r => r.sequence_id == m.sequence_id))

/-- The coercing parse of the sample timedeltas 5s, 2s and 9s. -/
def sampleParse : TimedeltaParse := fun s =>
  if s == "0 days 00:00:05" then some 5
  else if s == "0 days 00:00:02" then some 2
  else if s == "0 days 00:00:09" then some 9
  else none

/-- A positive-prediction row of sequence `"s"` with the given timedelta. -/
def delayRow (td : String) : PredictionRecord :=
  { sequence_id := "s", image := "i.jpg", sequence_label := true,
    ground_truth_boxes := [], image_label := true, prediction := true,
    confidence := 1, timedelta := td }

/-- A table whose single sequence has positive predictions at timedeltas
5s, 2s and 9s. -/
def delayDf : List PredictionRecord :=
  [delayRow "0 days 00:00:05", delayRow "0 days 00:00:02", delayRow "0 days 00:00:09"]

/-- The sequence-level entry the aggregation computes for `delayDf`:
detection delay 2, the minimum of 5, 2 and 9. -/
def sampleSeqMetric : SequenceMetric :=
  { sequence_id := "s", label := true, has_detection := true, detection_delay := some 2 }

/-- Witness for C6 at a concrete input: positive predictions at
timedeltas 5s, 2s, 9s give detection delay 2s - attained and minimal. -/
theorem compute_sequence_level_metrics_detection_delay_witness :
    (∃ r ∈ (delayDf.filter (fun r => r.sequence_id == sampleSeqMetric.sequence_id)).filter
      (fun r => r.prediction), sampleParse r.timedelta = some 2) ∧
    ∀ r ∈ (delayDf.filter (fun r => r.sequence_id == sampleSeqMetric.sequence_id)).filter
      (fun r => r.prediction), ∀ e : Rat, sampleParse r.timedelta = some e → (2 : Rat) ≤ e := by
  have h := compute_sequence_level_metrics_detection_delay sampleParse delayDf
    sampleSeqMetric (by decide)
  exact h.2 2 rfl

theorem lookup_avg_detection_delay (parse : TimedeltaParse) (df : List PredictionRecord) :
    (compute_sequence_level_metrics parse df).lookup "avg_detection_delay" =
      some (if (((tp_sequences parse df).map SequenceMetric.detection_delay).filterMap id).isEmpty
        then MetricValue.null
        else .num ((((tp_sequences parse df).map SequenceMetric.detection_delay).filterMap id).sum /
          (((((tp_sequences parse df).map SequenceMetric.detection_delay).filterMap id).length : Nat) : Rat))) := by
  rfl

/-- C7 (amended): the returned dict always carries the key
`avg_detection_delay`; its value is the mean of the non-missing
detection delays of the true-positive sequences (the value `q` satisfies
`q * count = sum`) when at least one such delay exists, and the value
`None` (null) - the key present, not absent - when no true-positive
sequence has a usable delay. -/
theorem compute_sequence_level_metrics_avg_detection_delay
    (parse : TimedeltaParse) (df : List PredictionRecord) :
    ((((tp_sequences parse df).map SequenceMetric.detection_delay).filterMap id = []) →
      (compute_sequence_level_metrics parse df).lookup "avg_detection_delay" =
        some MetricValue.null) ∧
    ∀ (d : Rat) (ds : List Rat),
      ((tp_sequences parse df).map SequenceMetric.detection_delay).filterMap id = d :: ds →
      ∃ q : Rat,
        (compute_sequence_level_metrics parse df).lookup "avg_detection_delay" =
          some (.num q) ∧
        q * (((d :: ds).length : Nat) : Rat) = (d :: ds).sum := by
  constructor
  · intro h
    rw [lookup_avg_detection_delay, h]
    rfl
  · intro d ds h
    rw [lookup_avg_detection_delay, h]
    refine ⟨(d :: ds).sum / (((d :: ds).length : Nat) : Rat), by rw [List.isEmpty_cons]; rfl, ?_⟩
    have hne : ((((d :: ds).length : Nat)) : Rat) ≠ 0 := by
      rw [List.length_cons]
      exact_mod_cast Nat.succ_ne_zero ds.length
    rw [div_mul_cancel₀ _ hne]

/-- The always-failing coercion: every timedelta string is unparseable. -/
def noParse : TimedeltaParse := fun _ => none

/-- A table whose single sequence is a true positive (label and prediction
both true) with an unparseable timedelta. -/
def tpNoDelayDf : List PredictionRecord :=
  [{ sequence_id := "s", image := "i.jpg", sequence_label := true,
     ground_truth_boxes := [], image_label := true, prediction := true,
     confidence := 1, timedelta := "garbage" }]

/-- C7 counterexample: with one true-positive sequence and no usable
delay, the returned dict still contains the key `avg_detection_delay` -
its value is `None` (null); the field is present, not absent. -/
theorem compute_sequence_level_metrics_avg_delay_present_counterexample :
    ((compute_sequence_level_metrics noParse tpNoDelayDf).map Prod.fst).contains
      "avg_detection_delay" = true ∧
    (compute_sequence_level_metrics noParse tpNoDelayDf).lookup "avg_detection_delay" =
      some MetricValue.null ∧
    (tp_sequences noParse tpNoDelayDf).length = 1 := by
  exact ⟨rfl, rfl, rfl⟩

/-- Witness for the amended C7 at a concrete input: `delayDf` has one
true-positive sequence with usable delay 2, so the dict carries a numeric
mean `q` with `q * 1 = 2`. -/
theorem compute_sequence_level_metrics_avg_detection_delay_witness :
    ∃ q : Rat,
      (compute_sequence_level_metrics sampleParse delayDf).lookup "avg_detection_delay" =
        some (.num q) ∧
      q * ((([(2 : Rat)].length : Nat)) : Rat) = [(2 : Rat)].sum := by
  exact (compute_sequence_level_metrics_avg_detection_delay sampleParse delayDf).2 2 []
    (by decide)

theorem groupKeys_loop_mem (df : List PredictionRecord) :
    ∀ (acc : List String) (id : String),
      (id ∈ df.foldl
        (fun acc r => if acc.contains r.sequence_id then acc else acc ++ [r.sequence_id]) acc) ↔
      (id ∈ acc ∨ id ∈ df.map PredictionRecord.sequence_id) := by
  induction df with
  | nil => simp
  | cons r rest ih =>
    intro acc id
    simp only [List.foldl_cons, List.map_cons, List.mem_cons]
    by_cases h : acc.contains r.sequence_id = true
    · rw [if_pos h, ih]
      have hmem : r.sequence_id ∈ acc := List.elem_iff.mp h
      constructor
      · rintro (ha | hm)
        · exact Or.inl ha
        · exact Or.inr (Or.inr hm)
      · rintro (ha | heq | hm)
        · exact Or.inl ha
        · exact Or.inl (by rw [heq]; exact hmem)
        · exact Or.inr hm
    · rw [if_neg h, ih]
      simp [List.mem_append, or_assoc]

theorem groupKeys_loop_nodup (df : List PredictionRecord) :
    ∀ acc : List String, acc.Nodup →
      (df.foldl
        (fun acc r => if acc.contains r.sequence_id then acc else acc ++ [r.sequence_id])
        acc).Nodup := by
  induction df with
  | nil => intro acc hacc; simpa using hacc
  | cons r rest ih =>
    intro acc hacc
    simp only [List.foldl_cons]
    by_cases h : acc.contains r.sequence_id = true
    · rw [if_pos h]
      exact ih acc hacc
    · rw [if_neg h]
      apply ih
      have hnm : r.sequence_id ∉ acc := fun hm => h (List.elem_iff.mpr hm)
      simp [List.nodup_append, hacc, hnm]

theorem groupKeys_mem (df : List PredictionRecord) (id : String) :
    id ∈ groupKeys df ↔ id ∈ df.map PredictionRecord.sequence_id := by
  rw [groupKeys, groupKeys_loop_mem]
  simp

theorem groupKeys_nodup (df : List PredictionRecord) : (groupKeys df).Nodup :=
  groupKeys_loop_nodup df [] List.nodup_nil

theorem sequence_metrics_ids (parse : TimedeltaParse) (df : List PredictionRecord) :
    (sequence_metrics parse df).map SequenceMetric.sequence_id = groupKeys df := by
  unfold sequence_metrics
  rw [List.map_map]
  exact List.map_id (groupKeys df)

theorem count_filter_partition (l : List SequenceMetric) (id : String) :
    ((l.filter (fun m => m.label == true && m.has_detection == true)).map
        SequenceMetric.sequence_id).count id +
      ((l.filter (fun m => m.label == true && m.has_detection == false)).map
        SequenceMetric.sequence_id).count id +
      ((l.filter (fun m => m.label == false && m.has_detection == true)).map
        SequenceMetric.sequence_id).count id +
      ((l.filter (fun m => m.label == false && m.has_detection == false)).map
        SequenceMetric.sequence_id).count id
    = (l.map SequenceMetric.sequence_id).count id := by
  induction l with
  | nil => rfl
  | cons m rest ih =>
    rcases Bool.eq_false_or_eq_true m.label with hl | hl <;>
      rcases Bool.eq_false_or_eq_true m.has_detection with hd | hd
    · rw [List.filter_cons_of_pos (by rw [hl, hd]; decide),
        List.filter_cons_of_neg (by rw [hl, hd]; decide),
        List.filter_cons_of_neg (by rw [hl, hd]; decide),
        List.filter_cons_of_neg (by rw [hl, hd]; decide)]
      simp only [List.map_cons, List.count_cons]
      split <;> omega
    · rw [List.filter_cons_of_neg (by rw [hl, hd]; decide),
        List.filter_cons_of_pos (by rw [hl, hd]; decide),
        List.filter_cons_of_neg (by rw [hl, hd]; decide),
        List.filter_cons_of_neg (by rw [hl, hd]; decide)]
      simp only [List.map_cons, List.count_cons]
      split <;> omega
    · rw [List.filter_cons_of_neg (by rw [hl, hd]; decide),
        List.filter_cons_of_neg (by rw [hl, hd]; decide),
        List.filter_cons_of_pos (by rw [hl, hd]; decide),
        List.filter_cons_of_neg (by rw [hl, hd]; decide)]
      simp only [List.map_cons, List.count_cons]
      split <;> omega
    · rw [List.filter_cons_of_neg (by rw [hl, hd]; decide),
        List.filter_cons_of_neg (by rw [hl, hd]; decide),
        List.filter_cons_of_neg (by rw [hl, hd]; decide),
        List.filter_cons_of_pos (by rw [hl, hd]; decide)]
      simp only [List.map_cons, List.count_cons]
      split <;> omega

/-- C8: the sequence-level bucketing is a partition - a sequence id
appears in the prediction table iff it lands in exactly one of the four
bucket lists tp, fn, fp, tn (counted with multiplicity across all four:
exactly once; an id absent from the table appears zero times). -/
theorem sequence_bucketing_partition (parse : TimedeltaParse)
    (df : List PredictionRecord) (id : String) :
    (id ∈ df.map PredictionRecord.sequence_id) ↔
    (((tp_sequences parse df).map SequenceMetric.sequence_id).count id +
      ((fn_sequences parse df).map SequenceMetric.sequence_id).count id +
      ((fp_sequences parse df).map SequenceMetric.sequence_id).count id +
      ((tn_sequences parse df).map SequenceMetric.sequence_id).count id) = 1 := by
  rw [tp_sequences, fn_sequences, fp_sequences, tn_sequences, count_filter_partition,
    sequence_metrics_ids, ← groupKeys_mem df id]
  constructor
  · intro h
    exact List.count_eq_one_of_mem (groupKeys_nodup df) h
  · intro h
    by_contra hmem
    rw [List.count_eq_zero_of_not_mem hmem] at h
    exact one_ne_zero h.symm

/-- A Python exception as raised by `model.py`, by class and message. -/
inductive PyExn where
  | valueError (msg : String)
  | fileNotFoundError (msg : String)
  | runtimeError (msg : String)
  | otherError (msg : String)
  deriving DecidableEq

/-- An opaque loaded model handle: the `Classifier` built by
`load_onnx`, or a `YOLO` model from a local `.pt` file or from the
Hugging Face download path of `load_HF`. -/
inductive LoadedModel where
  | onnxClassifier
  | ptYolo
  | hfYolo
  deriving DecidableEq

/-- Whether `hay` starts with `needle`, over character lists. -/
def charsStartWith : List Char → List Char → Bool
  | _, [] => true
  | [], _ :: _ => false
  | c :: cs, d :: ds => c == d && charsStartWith cs ds

/-- Whether `needle` occurs somewhere in `hay`, over character lists. -/
def charsContain : List Char → List Char → Bool
  | [], needle => needle.isEmpty
  | c :: rest, needle => charsStartWith (c :: rest) needle || charsContain rest needle

/-- Python's `needle in haystack` substring test on strings. -/
def containsSubstr (haystack needle : String) : Bool :=
  charsContain haystack.toList needle.toList

/-- Python's `haystack.endswith(suffix)` on strings. -/
def strEndsWith (haystack suffix : String) : Bool :=
  suffix.toList.length ≤ haystack.toList.length &&
    haystack.toList.drop (haystack.toList.length - suffix.toList.length) == suffix.toList

/-- `Model.load_model`.  `isfile` abstracts `os.path.isfile(model_path)`;
`loadOnnx`, `loadPt` and `loadHF` abstract the outcomes of
`self.load_onnx()`, `YOLO(self.model_path)` and `self.load_HF()` (each of
which may raise).  The result is `Except`: `.error` is an uncaught Python
exception, `.ok (some m)` a returned model, `.ok none` Python's implicit
`return None` (reached when the path is an existing file with neither the
`.onnx` nor the `.pt` extension).  In the non-file branch, the source
calls `self.load_HF()` without `return`: its value is discarded, and when
it returns normally the unconditional `raise FileNotFoundError` that
follows fires; a falsy `model_path` (modelled by the empty string) raises
`ValueError` first. -/
def load_model (model_path : String) (isfile : Bool)
    (loadOnnx loadPt loadHF : Except PyExn LoadedModel) :
    Except PyExn (Option LoadedModel) :=
  if model_path == "" then
    .error (.valueError "No model provided for evaluation, path needs to be specified.")
  else if isfile then
    if strEndsWith model_path ".onnx" then loadOnnx.map some
    else if strEndsWith model_path ".pt" then loadPt.map some
    else .ok none
  else if containsSubstr model_path "huggingface.co" then
    match loadHF with
    | .error e => .error e
    | .ok _ => .error (.fileNotFoundError ("Model file not found: " ++ model_path))
  else .error (.fileNotFoundError ("Model file not found: " ++ model_path))

/-- Whether a `load_model` outcome is an uncaught `FileNotFoundError`. -/
def isFileNotFoundError : Except PyExn (Option LoadedModel) → Bool
  | .error (.fileNotFoundError _) => true
  | _ => false

/-- C10 counterexample: two model paths that are not existing local files
on which `load_model` does not raise `FileNotFoundError`: the empty
(falsy) path raises `ValueError`, and a `huggingface.co` path on which
`load_HF()` itself raises (for example for a missing token) propagates
that `ValueError` instead. -/
theorem load_model_counterexample :
    load_model "" false (.ok .onnxClassifier) (.ok .ptYolo) (.ok .hfYolo) =
      .error (.valueError "No model provided for evaluation, path needs to be specified.") ∧
    isFileNotFoundError
      (load_model "" false (.ok .onnxClassifier) (.ok .ptYolo) (.ok .hfYolo)) = false ∧
    load_model "https://huggingface.co/org/model" false (.ok .onnxClassifier) (.ok .ptYolo)
      (.error (.valueError "Error : no Hugging Face token found.")) =
      .error (.valueError "Error : no Hugging Face token found.") ∧
    isFileNotFoundError
      (load_model "https://huggingface.co/org/model" false (.ok .onnxClassifier) (.ok .ptYolo)
        (.error (.valueError "Error : no Hugging Face token found."))) = false := by
  exact ⟨rfl, rfl, rfl, rfl⟩

/-- C10 (amended): for every non-empty `model_path` that is not an
existing local file, `load_model` raises and never returns a model: when
the path does not contain `huggingface.co`, or it does and `load_HF()`
returns normally (its value discarded), the exception is
`FileNotFoundError`; when `load_HF()` itself raises, that exception
propagates instead.  A `model_path` that is an existing local file with
an extension other than `.onnx` and `.pt` makes `load_model` return
`None` without raising. -/
theorem load_model_never_returns_hf_model (model_path : String)
    (loadOnnx loadPt loadHF : Except PyExn LoadedModel)
    (hne : (model_path == "") = false) :
    (∀ m : LoadedModel, load_model model_path false loadOnnx loadPt loadHF ≠ .ok (some m)) ∧
    (containsSubstr model_path "huggingface.co" = false →
      load_model model_path false loadOnnx loadPt loadHF =
        .error (.fileNotFoundError ("Model file not found: " ++ model_path))) ∧
    (∀ m : LoadedModel, containsSubstr model_path "huggingface.co" = true →
      loadHF = .ok m →
      load_model model_path false loadOnnx loadPt loadHF =
        .error (.fileNotFoundError ("Model file not found: " ++ model_path))) ∧
    (∀ e : PyExn, containsSubstr model_path "huggingface.co" = true →
      loadHF = .error e →
      load_model model_path false loadOnnx loadPt loadHF = .error e) ∧
    (strEndsWith model_path ".onnx" = false → strEndsWith model_path ".pt" = false →
      load_model model_path true loadOnnx loadPt loadHF = .ok none) := by
  refine ⟨?_, ?_, ?_, ?_, ?_⟩
  · intro m
    unfold load_model
    rw [if_neg (by rw [hne]; exact Bool.noConfusion)]
    rw [if_neg (Bool.noConfusion)]
    by_cases hhf : containsSubstr model_path "huggingface.co" = true
    · rw [if_pos hhf]
      cases loadHF <;> exact fun hcontra => Except.noConfusion hcontra
    · rw [if_neg hhf]
      exact fun hcontra => Except.noConfusion hcontra
  · intro hnohf
    unfold load_model
    rw [if_neg (by rw [hne]; exact Bool.noConfusion), if_neg (Bool.noConfusion),
      if_neg (by rw [hnohf]; exact Bool.noConfusion)]
  · intro m hhf hok
    unfold load_model
    rw [if_neg (by rw [hne]; exact Bool.noConfusion), if_neg (Bool.noConfusion),
      if_pos hhf, hok]
  · intro e hhf herr
    unfold load_model
    rw [if_neg (by rw [hne]; exact Bool.noConfusion), if_neg (Bool.noConfusion),
      if_pos hhf, herr]
  · intro honnx hpt
    unfold load_model
    rw [if_neg (by rw [hne]; exact Bool.noConfusion), if_pos rfl,
      if_neg (by rw [honnx]; exact Bool.noConfusion),
      if_neg (by rw [hpt]; exact Bool.noConfusion)]

/-- Witness for the amended C10 at a concrete input: a `huggingface.co`
path that is not a local file, with `load_HF()` returning normally, ends
in `FileNotFoundError`; and an existing local file `weights.bin` (neither
`.onnx` nor `.pt`) returns `None`. -/
theorem load_model_never_returns_hf_model_witness :
    (load_model "https://huggingface.co/org/model" false (.ok .onnxClassifier) (.ok .ptYolo)
      (.ok .hfYolo) =
      .error (.fileNotFoundError
        ("Model file not found: " ++ "https://huggingface.co/org/model"))) ∧
    (load_model "weights.bin" true (.ok .onnxClassifier) (.ok .ptYolo) (.ok .hfYolo) =
      .ok none) := by
  constructor
  · exact (load_model_never_returns_hf_model "https://huggingface.co/org/model"
      (.ok .onnxClassifier) (.ok .ptYolo) (.ok .hfYolo) (by decide)).2.2.1 .hfYolo
      (by decide) rfl
  · exact (load_model_never_returns_hf_model "weights.bin"
      (.ok .onnxClassifier) (.ok .ptYolo) (.ok .hfYolo) (by decide)).2.2.2.2
      (by decide) (by decide)

/-- A raw model prediction - a list of boxes `[x1, y1, x2, y2, confidence]`. -/
abbrev Prediction := List (List Rat)

/-- `Model.inference`.  `Img` is the PIL image type (opaque); `loadImage`
abstracts `image.load()`, which stands outside any try block - its
exception propagates; `onnxCall` abstracts `self.model(pil_image)` of the
onnx branch; `torchCall` abstracts the guarded block of the other branch
(`self.model.predict(...)` together with the reformatting of its boxes
into `[*xyxyn, conf]` rows, all inside the same try).  The branch is
chosen by `self.format == "onnx"`.  A failing call is logged
(`logging.error`) and replaced by the empty prediction `[]`; the log
trail is returned alongside the prediction. -/
def inference {Img : Type} (format : String) (loadImage : Except PyExn Img)
    (onnxCall : Img → Except PyExn Prediction)
    (torchCall : Img → Except PyExn Prediction) (image_path : String) :
    Except PyExn (Prediction × List String) :=
  match loadImage with
  | .error e => .error e
  | .ok pil_image =>
    if format == "onnx" then
      match onnxCall pil_image with
      | .ok prediction => .ok (prediction, [])
      | .error _ => .ok ([], ["Onnx inference failed on " ++ image_path])
    else
      match torchCall pil_image with
      | .ok prediction => .ok (prediction, [])
      | .error _ => .ok ([], ["Inference failed on " ++ image_path])

/-- C9: whenever the model call of the active branch raises, `inference`
returns normally (never `.error`) with the empty "no detection"
prediction `[]` and one logged error line - the exception of the model
call is recovered locally and never propagates, so a single frame
failure cannot abort the sequence or the run. -/
theorem inference_recovers_model_failure {Img : Type} (format : String)
    (img : Img) (onnxCall torchCall : Img → Except PyExn Prediction)
    (image_path : String) (e : PyExn)
    (hfail : (if format == "onnx" then onnxCall img else torchCall img) = .error e) :
    inference format (.ok img) onnxCall torchCall image_path =
      .ok ([], [(if format == "onnx" then "Onnx inference failed on "
        else "Inference failed on ") ++ image_path]) := by
  by_cases hf : (format == "onnx") = true
  · rw [if_pos hf] at hfail
    simp [inference, hf, hfail]
  · rw [if_neg hf] at hfail
    simp [inference, hf, hfail]

/-- Witness for C9 at a concrete input: an onnx-format model whose call
raises `RuntimeError` still yields the empty prediction and a log line. -/
theorem inference_recovers_model_failure_witness :
    inference "onnx" (.ok ()) (fun _ => .error (.runtimeError "boom"))
      (fun _ => .ok []) "img0.jpg" =
      .ok ([], [(if ("onnx" == "onnx") then "Onnx inference failed on "
        else "Inference failed on ") ++ "img0.jpg"]) := by
  exact inference_recovers_model_failure "onnx" () (fun _ => .error (.runtimeError "boom"))
    (fun _ => .ok []) "img0.jpg" (.runtimeError "boom") rfl

end PyroEval
